import Mathlib

/-
Verification of the mastodon-vt100 terminal client against its
natural-language specification.  The Python sources are shallowly embedded:
pure functions become Lean functions over `List Char` / `Int` / `Nat`,
imperative loops become fuel-based or structural recursions, and terminal
side effects become explicit event traces.
-/

namespace Masto

/-! ## clip.py: BoundingRectangle -/

/-- Embedding of `BoundingRectangle` from clip.py.  The class stores four
unconstrained integers; the source imposes no well-formedness invariant. -/
structure BoundingRectangle where
  top : Int
  bottom : Int
  left : Int
  right : Int
deriving DecidableEq, Repr

/-- Embedding of the `width` property: `right - left`. -/
def BoundingRectangle.width (r : BoundingRectangle) : Int := r.right - r.left

/-- Embedding of the `height` property: `bottom - top`. -/
def BoundingRectangle.height (r : BoundingRectangle) : Int := r.bottom - r.top

/-- Embedding of `BoundingRectangle.clip`: each edge is independently clamped
against the opposing extremes of `bounds`. -/
def BoundingRectangle.clip (self bounds : BoundingRectangle) : BoundingRectangle :=
  { top := min (max self.top bounds.top) bounds.bottom
    bottom := max (min self.bottom bounds.bottom) bounds.top
    left := min (max self.left bounds.left) bounds.right
    right := max (min self.right bounds.right) bounds.left }

/-! ## text.py: ControlCodes and attribute code emission -/

/-- Embedding of `ControlCodes` from text.py: the three VT-100 attribute
flags tracked by the renderer. -/
structure ControlCodes where
  bold : Bool
  underline : Bool
  reverse : Bool
deriving DecidableEq, Repr

/-- The four attribute commands that `ControlCodes.codesFrom` can emit
(`Terminal.SET_NORMAL`, `SET_BOLD`, `SET_UNDERLINE`, `SET_REVERSE`). -/
inductive AttrCode where
  | setNormal
  | setBold
  | setUnderline
  | setReverse
deriving DecidableEq, Repr

/-- Embedding of `ControlCodes.codesFrom` from text.py: the sequence of
attribute commands that takes a device from state `prev` to state `self`. -/
def ControlCodes.codesFrom (self prev : ControlCodes) : List AttrCode :=
  if ((!self.bold) && prev.bold)
      || ((!self.underline) && prev.underline)
      || ((!self.reverse) && prev.reverse) then
    [AttrCode.setNormal]
      ++ (if self.bold then [AttrCode.setBold] else [])
      ++ (if self.underline then [AttrCode.setUnderline] else [])
      ++ (if self.reverse then [AttrCode.setReverse] else [])
  else
    (if (!prev.bold) && self.bold then [AttrCode.setBold] else [])
      ++ (if (!prev.underline) && self.underline then [AttrCode.setUnderline] else [])
      ++ (if (!prev.reverse) && self.reverse then [AttrCode.setReverse] else [])

/-- Modelled from the spec: the device semantics of the four attribute
commands (the vtpy `Terminal` is an external dependency, not part of this
repository).  `SET_NORMAL` is reset-all; the other three each enable one
flag, and the device has no command that disables a single flag. -/
def applyCode (st : ControlCodes) : AttrCode → ControlCodes
  | AttrCode.setNormal => { bold := false, underline := false, reverse := false }
  | AttrCode.setBold => { st with bold := true }
  | AttrCode.setUnderline => { st with underline := true }
  | AttrCode.setReverse => { st with reverse := true }

/-- Applying a sequence of attribute commands to a device state, in order. -/
def applyCodes (st : ControlCodes) (codes : List AttrCode) : ControlCodes :=
  List.foldl applyCode st codes

/-- The condition under which `codesFrom` must reset: `self` disables some
flag that `prev` had enabled. -/
def disablesSomething (self prev : ControlCodes) : Prop :=
  (prev.bold = true ∧ self.bold = false)
    ∨ (prev.underline = true ∧ self.underline = false)
    ∨ (prev.reverse = true ∧ self.reverse = false)

instance (self prev : ControlCodes) : Decidable (disablesSomething self prev) := by
  unfold disablesSomething
  infer_instance

/-! ## renderer.py: screen-group stack -/

/-- Embedding of the `Renderer` fields relevant to `push`/`pop`: the active
component group and the history stack of component groups.  Components are
abstracted by an arbitrary type `C`. -/
structure RendererState (C : Type) where
  components : List C
  stack : List (List C)
deriving DecidableEq

/-- Redraw events emitted while popping: one `draw` per component of the
restored group. -/
inductive RenderEvent (C : Type) where
  | draw : C → RenderEvent C
deriving DecidableEq

/-- Embedding of `Renderer.pop`: when the stack is nonempty, restore the top
group (`stack[-1]`), shrink the stack (`stack[:-1]`) and draw each restored
component; otherwise do nothing. -/
def Renderer.pop {C : Type} (s : RendererState C) : RendererState C × List (RenderEvent C) :=
  if s.stack.isEmpty then
    (s, [])
  else
    let comps := s.stack.getLastD []
    ({ components := comps, stack := s.stack.dropLast },
     comps.map RenderEvent.draw)

/-! ## text.py: display -/

/-- The shadow state the renderer keeps for the terminal: grid size,
the three attribute flags, and the cursor position. -/
structure Terminal where
  rows : Int
  columns : Int
  bolded : Bool
  underlined : Bool
  reversed : Bool
  cursorRow : Int
  cursorCol : Int
deriving DecidableEq

/-- The three kinds of device traffic `display` can produce: raw text,
attribute commands, and absolute cursor moves. -/
inductive TermEvent where
  | sendText : List Char → TermEvent
  | sendCommand : AttrCode → TermEvent
  | moveCursor : Int → Int → TermEvent
deriving DecidableEq

/-- Modelled from the spec: how the shadow state evolves when an event is
sent (the vtpy `Terminal` is external to this repository).  Attribute
commands update the attribute flags, cursor moves update the cursor, and
text advances the cursor column.  Only its fold over the empty trace matters
for the no-op theorem. -/
def applyEvent (t : Terminal) : TermEvent → Terminal
  | TermEvent.sendText s => { t with cursorCol := t.cursorCol + s.length }
  | TermEvent.sendCommand c =>
      let a := applyCode { bold := t.bolded, underline := t.underlined, reverse := t.reversed } c
      { t with bolded := a.bold, underlined := a.underline, reversed := a.reverse }
  | TermEvent.moveCursor r c => { t with cursorRow := r, cursorCol := c }

/-- Folding a trace of events over the shadow state. -/
def applyEvents (t : Terminal) (evs : List TermEvent) : Terminal :=
  List.foldl applyEvent t evs

/-- The device extents rectangle used by `display` when clipping:
`BoundingRectangle(left=1, top=1, right=columns+1, bottom=rows+1)`. -/
def screenBounds (t : Terminal) : BoundingRectangle :=
  { top := 1, bottom := t.rows + 1, left := 1, right := t.columns + 1 }

/-- Embedding of the character loop of `display`: draw each character of the
line, first emitting the attribute commands needed to move the device from
the running attribute state to the character's own, and stop once the column
reaches the right edge of the bounds.  Out-of-range metadata reads (which
would raise in Python) return a default code. -/
def displayChars (bounds : BoundingRectangle) :
    List Char → List ControlCodes → ControlCodes → Int → List TermEvent × ControlCodes
  | [], _, last, _ => ([], last)
  | c :: rest, codes, last, col =>
    let code := codes.headD { bold := false, underline := false, reverse := false }
    let evs := (code.codesFrom last).map TermEvent.sendCommand ++ [TermEvent.sendText [c]]
    if bounds.right ≤ col + 1 then
      (evs, code)
    else
      let (more, last2) := displayChars bounds rest (codes.drop 1) code (col + 1)
      (evs ++ more, last2)

/-- Embedding of the line loop of `display`: for every line after the first,
move to the next row (a newline shortcut when the left edge is column 1,
otherwise an absolute cursor move), truncate the line to the bounds width,
and emit its characters. -/
def displayLines (bounds : BoundingRectangle) :
    List (List Char × List ControlCodes) → ControlCodes → Int → Bool → List TermEvent
  | [], _, _, _ => []
  | (text, codes) :: rest, last, row, isFirst =>
    let (rowEvents, row2) :=
      if isFirst then (([] : List TermEvent), row)
      else if bounds.left = 1 then ([TermEvent.sendText ['\n']], row + 1)
      else ([TermEvent.moveCursor (row + 1) bounds.left], row + 1)
    let text2 := text.take bounds.width.toNat
    let codes2 := codes.take bounds.width.toNat
    let (charEvents, last2) := displayChars bounds text2 codes2 last bounds.left
    rowEvents ++ charEvents ++ displayLines bounds rest last2 row2 false

/-- Embedding of `display` from text.py: the paint primitive.  It returns
the trace of events sent to the device.  Early returns fire when the bounds
lie entirely off an edge of the device; otherwise the lines are shifted for
a partially off-screen top/left edge, the bounds are clipped to the device
extents, zero-size intersections return with no traffic, and the surviving
lines are drawn. -/
def display (terminal : Terminal) (lines : List (List Char × List ControlCodes))
    (bounds : BoundingRectangle) : List TermEvent :=
  if bounds.bottom ≤ 1 then []
  else if terminal.rows < bounds.top then []
  else if bounds.right ≤ 1 then []
  else if terminal.columns < bounds.left then []
  else
    let lines2 :=
      if bounds.top < 1 then lines.drop (-(bounds.top - 1)).toNat else lines
    let lines3 :=
      if bounds.left < 1 then
        lines2.map (fun tc =>
          (tc.1.drop (-(bounds.left - 1)).toNat, tc.2.drop (-(bounds.left - 1)).toNat))
      else lines2
    let bounds2 := bounds.clip (screenBounds terminal)
    if bounds2.width = 0 ∨ bounds2.height = 0 then []
    else
      let lines4 := lines3.take bounds2.height.toNat
      let last : ControlCodes :=
        { bold := terminal.bolded, underline := terminal.underlined, reverse := terminal.reversed }
      let moveEvents :=
        if terminal.cursorRow ≠ bounds2.top ∨ terminal.cursorCol ≠ bounds2.left then
          if terminal.cursorRow = bounds2.top - 1 ∧ bounds2.left = 1 then
            [TermEvent.sendText ['\n']]
          else
            [TermEvent.moveCursor bounds2.top bounds2.left]
        else []
      moveEvents ++ displayLines bounds2 lines4 last bounds2.top true

/-! ## text.py: string replacement, formatted-markup splitting, highlight -/

/-- Whether `pat` is an initial segment of `s` (used to embed Python's
substring matching in `str.replace`). -/
def startsWith : List Char → List Char → Bool
  | _, [] => true
  | [], _ :: _ => false
  | c :: cs, p :: ps => c == p && startsWith cs ps

/-- Embedding of Python `str.replace` for a nonempty pattern: replace all
non-overlapping occurrences of `pat` by `rep`, scanning left to right.  The
fuel argument is the length of the remaining input; every step consumes at
least one character, so the fuel never runs out when started at the input
length. -/
def pyReplaceAux (pat rep : List Char) : Nat → List Char → List Char
  | 0, s => s
  | fuel + 1, s =>
    match s with
    | [] => []
    | c :: rest =>
      if pat.length ≠ 0 ∧ startsWith (c :: rest) pat = true then
        rep ++ pyReplaceAux pat rep fuel (rest.drop (pat.length - 1))
      else
        c :: pyReplaceAux pat rep fuel rest

/-- Python `s.replace(pat, rep)` for the nonempty patterns used in text.py. -/
def pyReplace (pat rep s : List Char) : List Char :=
  pyReplaceAux pat rep s.length s

/-- Embedding of `unsanitize` from text.py: decode the three HTML entities,
in source order. -/
def unsanitize (text : List Char) : List Char :=
  pyReplace (("&lt;").toList) ['<'] (pyReplace (("&gt;").toList) ['>'] (pyReplace (("&amp;").toList) ['&'] text))

/-- Embedding of `__split_formatted_string` from text.py: cut a marked-up
string into parts, where a part is either a `<...>` tag or a run of plain
text.  `acc` is the pending accumulator, `parts` the finished parts. -/
def splitFS : List Char → List Char → List (List Char) → List (List Char)
  | [], acc, parts => if acc.isEmpty then parts else parts ++ [acc]
  | ch :: rest, acc, parts =>
    if ch = '<' then
      splitFS rest [ch] (if acc.isEmpty then parts else parts ++ [acc])
    else if ch = '>' then
      let acc2 := acc ++ [ch]
      if acc2.headD 'x' = '<' then
        splitFS rest [] (parts ++ [acc2])
      else
        splitFS rest acc2 parts
    else
      splitFS rest (acc ++ [ch]) parts

/-- Embedding of `__split_formatted_string` started on an empty state. -/
def splitFormattedString (s : List Char) : List (List Char) :=
  splitFS s [] []

/-- Embedding of the `highlight` loop body state transition for one tag
part: the three independent if-chains over bold, underline and reverse
depths from text.py. -/
def highlightTag (part : List Char) (cur : ControlCodes) (bd ud rd : Nat) :
    ControlCodes × Nat × Nat × Nat :=
  let (cur, bd) :=
    if part = ("<b>").toList ∨ part = ("<bold>").toList then
      (if bd + 1 = 1 then { cur with bold := true } else cur, bd + 1)
    else if part = ("</b>").toList ∨ part = ("</bold>").toList then
      (if bd = 1 then { cur with bold := false } else cur, bd - 1)
    else (cur, bd)
  let (cur, ud) :=
    if part = ("<u>").toList ∨ part = ("<underline>").toList then
      (if ud + 1 = 1 then { cur with underline := true } else cur, ud + 1)
    else if part = ("</u>").toList ∨ part = ("</underline>").toList then
      (if ud = 1 then { cur with underline := false } else cur, ud - 1)
    else (cur, ud)
  let (cur, rd) :=
    if part = ("<r>").toList ∨ part = ("<reverse>").toList then
      (if rd + 1 = 1 then { cur with reverse := true } else cur, rd + 1)
    else if part = ("</r>").toList ∨ part = ("</reverse>").toList then
      (if rd = 1 then { cur with reverse := false } else cur, rd - 1)
    else (cur, rd)
  (cur, bd, ud, rd)

/-- Embedding of the main loop of `highlight` from text.py: parts that look
like `<...>` tags update the current control-code state; every other part is
unsanitized and appended to the output text, with one copy of the current
control code per character. -/
def highlightLoop :
    List (List Char) → ControlCodes → Nat → Nat → Nat →
      List Char → List ControlCodes → List Char × List ControlCodes
  | [], _, _, _, _, t, cs => (t, cs)
  | part :: parts, cur, bd, ud, rd, t, cs =>
    if part.take 1 = ['<'] ∧ part.drop (part.length - 1) = ['>'] then
      let (cur2, bd2, ud2, rd2) := highlightTag part cur bd ud rd
      highlightLoop parts cur2 bd2 ud2 rd2 t cs
    else
      let part2 := unsanitize part
      highlightLoop parts cur bd ud rd (t ++ part2)
        (cs ++ List.replicate part2.length cur)

/-- Embedding of `highlight` from text.py. -/
def highlight (text : List Char) : List Char × List ControlCodes :=
  highlightLoop (splitFormattedString text)
    { bold := false, underline := false, reverse := false } 0 0 0 [] []

/-! ## component.py: timeline jump navigation (keys t, p, n) -/

/-- Terminal traffic and drawing steps performed by the timeline jump
handlers.  `fullRedraw` stands for a call to `self._draw()`, `drawOneLine n`
for `self._drawOneLine(n)`. -/
inductive TLEvent where
  | saveCursor
  | restoreCursor
  | moveCursor : Int → Int → TLEvent
  | setScrollRegion : Int → Int → TLEvent
  | clearScrollRegion
  | moveCursorUp
  | moveCursorDown
  | drawOneLine : Int → TLEvent
  | fullRedraw
deriving DecidableEq, Repr

/-- Embedding of the `viewHeight` local of `_draw`/`_drawOneLine` in
component.py: the viewport occupies rows `top..bottom` inclusive, so its
height in rows is `(bottom - top) + 1`. -/
def viewHeight (top bottom : Int) : Int := (bottom - top) + 1

/-- Embedding of the `b"t"` (jump to top) handler of
`TimelineComponent.processInput`: when the offset is positive and below
`(bottom - top) + 1`, shift the scroll region up one row per offset row and
repaint changed labels plus the newly exposed top rows; otherwise repaint
the whole viewport. -/
def jumpToTop (top bottom offset : Int) (postNumberRedraw : Bool)
    (labelRows : List Int) : List TLEvent :=
  if 0 < offset then
    if offset < (bottom - top) + 1 then
      let drawAmount := offset
      [TLEvent.saveCursor, TLEvent.moveCursor top 1, TLEvent.setScrollRegion top bottom]
        ++ List.replicate drawAmount.toNat TLEvent.moveCursorUp
        ++ [TLEvent.clearScrollRegion]
        ++ (if postNumberRedraw then
              (labelRows.filter (fun line =>
                !(decide (line < top)) && !(decide (bottom < line))
                  && !(decide (top ≤ line) && decide (line < top + drawAmount)))).map
                TLEvent.drawOneLine
            else [])
        ++ (List.range drawAmount.toNat).map (fun i => TLEvent.drawOneLine (top + (i : Int)))
        ++ [TLEvent.restoreCursor]
    else
      [TLEvent.fullRedraw]
  else []

/-- Embedding of the `b"p"` (jump to previous post) handler of
`TimelineComponent.processInput`, from the point where the row delta
`moveAmount` has been computed. -/
def jumpToPrevPost (top bottom moveAmount : Int) (postNumberRedraw : Bool)
    (labelRows : List Int) : List TLEvent :=
  if 0 < moveAmount then
    if moveAmount ≤ bottom - top then
      [TLEvent.saveCursor, TLEvent.moveCursor top 1, TLEvent.setScrollRegion top bottom]
        ++ List.replicate moveAmount.toNat TLEvent.moveCursorUp
        ++ [TLEvent.clearScrollRegion]
        ++ (if postNumberRedraw then
              (labelRows.filter (fun line =>
                !(decide (line < top)) && !(decide (bottom < line))
                  && !(decide (top ≤ line) && decide (line < top + moveAmount)))).map
                TLEvent.drawOneLine
            else [])
        ++ (List.range moveAmount.toNat).map (fun i => TLEvent.drawOneLine (top + (i : Int)))
        ++ [TLEvent.restoreCursor]
    else
      [TLEvent.fullRedraw]
  else []

/-- Embedding of the `b"n"` (jump to next post) handler of
`TimelineComponent.processInput`, from the point where the row delta
`moveAmount` has been computed.  `drawSucceeds` abstracts whether
`_drawOneLine` found content for a row, `drawResult` abstracts the range of
blank rows `_draw` reports; the second and third components are the rows
queued for post-fetch repaint and the infinite-scroll flag. -/
def jumpToNextPost (top bottom moveAmount : Int) (postNumberRedraw : Bool)
    (labelRows : List Int) (drawSucceeds : Int → Bool)
    (drawResult : Option (Int × Int)) : List TLEvent × List Int × Bool :=
  if 0 < moveAmount then
    if moveAmount ≤ bottom - top then
      let skipLo := bottom - (moveAmount - 1)
      let exposed := (List.range moveAmount.toNat).map (fun i => skipLo + (i : Int))
      let trace :=
        [TLEvent.saveCursor, TLEvent.setScrollRegion top bottom,
         TLEvent.moveCursor ((bottom - top) + 1) 1]
          ++ List.replicate moveAmount.toNat TLEvent.moveCursorDown
          ++ [TLEvent.clearScrollRegion]
          ++ (if postNumberRedraw then
                (labelRows.filter (fun line =>
                  !(decide (line < top)) && !(decide (bottom < line))
                    && !(decide (skipLo ≤ line) && decide (line < bottom + 1)))).map
                  TLEvent.drawOneLine
              else [])
          ++ exposed.map TLEvent.drawOneLine
          ++ [TLEvent.restoreCursor]
      let needsData := exposed.filter (fun line => !(drawSucceeds line))
      (trace, needsData, !needsData.isEmpty)
    else
      match drawResult with
      | some se =>
          ([TLEvent.fullRedraw],
           (List.range (se.2 + 1 - se.1).toNat).map (fun i => se.1 + (i : Int)), true)
      | none => ([TLEvent.fullRedraw], [], false)
  else ([], [], false)

/-! ## component.py: infinite-scroll fetch block -/

/-- Effects performed by the infinite-scroll block at the end of
`TimelineComponent.processInput`.  Status-bar messages are abstracted to a
bare `statusMsg` event; `fetchSince s` records the single
`client.fetchTimeline(timeline, since=s)` call with the last held status. -/
inductive ScrollEvent (S : Type) where
  | statusMsg
  | fetchSince : S → ScrollEvent S
  | drawLine : Int → ScrollEvent S
deriving DecidableEq

/-- Whether an event is a timeline fetch call. -/
def ScrollEvent.isFetch {S : Type} : ScrollEvent S → Bool
  | ScrollEvent.fetchSince _ => true
  | _ => false

/-- Embedding of the infinite-scroll block of
`TimelineComponent.processInput` (executed when `infiniteScrollFetch` was
set): fetch the continuation since the last held status, build one post per
new status via `_get_post` (abstracted by `getPost`), append both lists, and
repaint the queued rows.  `fetched` abstracts what
`client.fetchTimeline` returns.  The result is the new status list, the new
post list, and the trace of effects. -/
def infiniteScrollStep {S P : Type} (statuses : List S) (posts : List P)
    (getPost : S → P) (redrawRows : List Int) (fetched : List S)
    (h : statuses ≠ []) : List S × List P × List (ScrollEvent S) :=
  let newPosts := fetched.map getPost
  (statuses ++ fetched,
   posts ++ newPosts,
   [ScrollEvent.statusMsg, ScrollEvent.fetchSince (statuses.getLast h),
    ScrollEvent.statusMsg]
     ++ redrawRows.map ScrollEvent.drawLine
     ++ [ScrollEvent.statusMsg])

/-! ## text.py: wordwrap -/

/-- Python-style indexing for the one place `wordwrap` can index with `-1`
(`text[pos - 1]` when `pos = 0`): negative indices count from the end. -/
def pyGet (t : List Char) (i : Int) : Char :=
  if i < 0 then t.getD (t.length - (-i).toNat) 'x' else t.getD i.toNat 'x'

/-- The placeholder `wordwrap` temporarily substitutes for CRLF pairs
(written with hex escapes for the brace characters). -/
def crlfMarker : List Char := ['\x7b', '\x01', '\x02', '\x03', '\x7d']

/-- Embedding of the tab-expansion loop of `wordwrap`: walk the text with
the running line length, replace each tab by `4 - lineLength % 4` spaces
(duplicating the tab's metadata slice `meta[i:i+1]` for each space), drop
stray carriage returns, and reset the line length at newlines.  `i` indexes
the metadata exactly as the Python `enumerate` index does. -/
def tabStep {M : Type} (meta : List M) : Nat → Nat → List Char → List Char × List M
  | _, _, [] => ([], [])
  | i, lineLength, c :: rest =>
    if c = '\t' then
      let numSpaces := 4 - lineLength % 4
      let p := tabStep meta (i + 1) (lineLength + numSpaces) rest
      (List.replicate numSpaces ' ' ++ p.1,
       (List.replicate numSpaces ((meta.drop i).take 1)).flatten ++ p.2)
    else if c = '\r' then
      tabStep meta (i + 1) lineLength rest
    else if c = '\n' then
      let p := tabStep meta (i + 1) 0 rest
      (c :: p.1, (meta.drop i).take 1 ++ p.2)
    else
      let p := tabStep meta (i + 1) (lineLength + 1) rest
      (c :: p.1, (meta.drop i).take 1 ++ p.2)

/-- Embedding of the wrap-point scan of `wordwrap`: spaces and newlines are
wrap points; a dash arms `lastPunctuation`; an alphanumeric character
(Python `str.isalnum`, embedded as `Char.isAlphanum`) right after armed
punctuation is a wrap point; any other character leaves the armed state
untouched. -/
def findWrapPoints : Nat → Bool → List Char → List Nat
  | _, _, [] => []
  | i, lastPunctuation, ch :: rest =>
    if ch = ' ' ∨ ch = '\n' then i :: findWrapPoints (i + 1) false rest
    else if ch = '-' then findWrapPoints (i + 1) true rest
    else if ch.isAlphanum then
      if lastPunctuation then i :: findWrapPoints (i + 1) false rest
      else findWrapPoints (i + 1) false rest
    else findWrapPoints (i + 1) lastPunctuation rest

/-- Embedding of the `for i in range(pos + 1, len(text))` scans of
`wordwrap`: the first index at or beyond `start` holding a non-space. -/
def findFirstNonSpace (text : List Char) (start : Nat) : Option Nat :=
  ((List.range text.length).drop start).find? (fun i => !(text.getD i ' ' == ' '))

/-- Embedding of one iteration of the main `while text:` loop of `wordwrap`:
returns the lines emitted by this iteration and the new
(text, meta, wrapPoints) state.  All branch structure mirrors the source:
newline wrap points are preferred; otherwise the last relevant wrap point is
used when the text overflows, splitting on spaces (with or without
trailing-space stripping) or mid-word at punctuation; with no usable wrap
point the text is cut at exactly `width`.  Indexing uses total reads
(`getD`); the loop maintains every wrap point inside the text, so the
defaults are never consulted. -/
def wwStep {M : Type} (width : Nat) (ssp : Bool) (text : List Char) (meta : List M)
    (points : List Nat) :
    List (List Char × List M) × List Char × List M × List Nat :=
  let relevantPoints := points.filter (fun x => decide (x ≤ width))
  match relevantPoints.find? (fun pos => text.getD pos 'x' == '\n') with
  | some pos =>
      ([(text.take pos, meta.take pos)],
       text.drop (pos + 1), meta.drop (pos + 1),
       (points.filter (fun x => decide (pos + 1 ≤ x))).map (fun x => x - (pos + 1)))
  | none =>
    if width < text.length ∧ relevantPoints ≠ [] then
      let pos := relevantPoints.getLastD 0
      if text.getD pos 'x' = ' ' then
        if ssp then
          match findFirstNonSpace text (pos + 1) with
          | some spot =>
              ([(text.take pos, meta.take pos)],
               text.drop spot, meta.drop spot,
               (points.filter (fun x => decide (spot ≤ x))).map (fun x => x - spot))
          | none =>
              ([(text.take pos, meta.take pos)], [], [], [])
        else
          if pos = width ∧ pyGet text ((pos : Int) - 1) ≠ ' ' then
            let spot := pos + 1
            let newText := text.drop spot
            ((text.take pos, meta.take pos) ::
               (if newText.isEmpty then [(([] : List Char), ([] : List M))] else []),
             newText, meta.drop spot,
             (points.filter (fun x => decide (spot ≤ x))).map (fun x => x - spot))
          else
            let spot0 :=
              match findFirstNonSpace text (pos + 1) with
              | some s => s
              | none => text.length
            let spot := if width < spot0 then width else spot0
            ([(text.take spot, meta.take spot)],
             text.drop spot, meta.drop spot,
             (points.filter (fun x => decide (spot ≤ x))).map (fun x => x - spot))
      else
        ([(text.take pos, meta.take pos)],
         text.drop pos, meta.drop pos,
         (points.filter (fun x => decide (pos ≤ x))).map (fun x => x - pos))
    else
      ([(text.take width, meta.take width)],
       text.drop width, meta.drop width,
       (points.filter (fun x => decide (width ≤ x))).map (fun x => x - width))

/-- The fuel-indexed main loop of `wordwrap`.  The loop may fail to
terminate in Python (a zero-progress wrap point); exhausted fuel returns
`none` to represent divergence. -/
def wwLoop {M : Type} (width : Nat) (ssp : Bool) :
    Nat → List Char → List M → List Nat → List (List Char × List M) →
      Option (List (List Char × List M))
  | _, [], _, _, acc => some acc
  | 0, _ :: _, _, _, _ => none
  | fuel + 1, c :: rest, meta, points, acc =>
      let r := wwStep width ssp (c :: rest) meta points
      wwLoop width ssp fuel r.2.1 r.2.2.1 r.2.2.2 (acc ++ r.1)

/-- Embedding of the trailing-space strip loop of `stripSpace`: drop
trailing spaces from the text, removing one metadata entry per removed
character.  The fuel is the text length, which bounds the iteration
count. -/
def rstripSpacesAux {M : Type} : Nat → List Char → List M → List Char × List M
  | 0, t, m => (t, m)
  | fuel + 1, t, m =>
    if t.getLast? = some ' ' then rstripSpacesAux fuel t.dropLast m.dropLast
    else (t, m)

/-- Embedding of the `stripSpace` post-processing closure of `wordwrap`:
undo the trailing-newline hack, then strip trailing spaces when asked. -/
def stripSpace {M : Type} (ssp : Bool) (line : List Char × List M) :
    List Char × List M :=
  if line.1 = ['\x08'] then ([], [])
  else if ssp then rstripSpacesAux line.1.length line.1 line.2
  else line

/-- Embedding of the trailing-empty-line strip loop of `wordwrap` (run when
`strip_trailing_newlines` is set).  The fuel is the list length. -/
def dropTrailingEmptiesAux {M : Type} :
    Nat → List (List Char × List M) → List (List Char × List M)
  | 0, ls => ls
  | fuel + 1, ls =>
    if !ls.isEmpty && (ls.getLastD ([], [])).1.isEmpty then
      dropTrailingEmptiesAux fuel ls.dropLast
    else ls

/-- Result of running `wordwrap`: a line list, a raised exception, or
divergence (the Python loop can fail to make progress on some inputs). -/
inductive WWResult (M : Type) where
  | ok : List (List Char × List M) → WWResult M
  | err : String → WWResult M
  | diverge : WWResult M
deriving DecidableEq

/-- The preprocessing stage of `wordwrap`: line-ending normalisation
through the CRLF marker dance, tab expansion, and the trailing-newline hack
that appends a backspace sentinel (duplicating the final metadata slice
`meta[-1:]`). -/
def wwPrepared {M : Type} (text : List Char) (meta : List M) : List Char × List M :=
  let text1 := pyReplace (['\r', '\n']) crlfMarker text
  let text2 := pyReplace (['\r']) (['\n']) text1
  let text3 := pyReplace crlfMarker (['\r', '\n']) text2
  let tm := tabStep meta 0 0 text3
  if tm.1.getLast? = some '\n' then
    (tm.1 ++ ['\x08'], tm.2 ++ tm.2.drop (tm.2.length - 1))
  else tm

/-- Embedding of `wordwrap` from text.py.  Empty text returns one empty
line before any checking; mismatched lengths raise; otherwise the input is
preprocessed, wrap points are scanned, the main loop splits lines (with
`fuel` bounding its iterations), and the post-processing strips trailing
spaces and trailing empty lines. -/
def wordwrap {M : Type} (text : List Char) (meta : List M) (width : Nat)
    (stripTrailingSpaces stripTrailingNewlines : Bool) (fuel : Nat) : WWResult M :=
  if text.isEmpty then WWResult.ok [(text.take 0, meta.take 0)]
  else if text.length ≠ meta.length then
    WWResult.err ("Metadata length must match text length!")
  else
    if (wwPrepared text meta).1.length ≠ (wwPrepared text meta).2.length then
      WWResult.err ("Logic error! Metadata length must match text length!")
    else
      match wwLoop width stripTrailingSpaces fuel (wwPrepared text meta).1
          (wwPrepared text meta).2 (findWrapPoints 0 false (wwPrepared text meta).1) [] with
      | none => WWResult.diverge
      | some outLines =>
        WWResult.ok
          (if stripTrailingNewlines then
            dropTrailingEmptiesAux (outLines.map (stripSpace stripTrailingSpaces)).length
              (outLines.map (stripSpace stripTrailingSpaces))
           else outLines.map (stripSpace stripTrailingSpaces))

/-! ## Theorems for C4 and C5 (BoundingRectangle.clip) -/

/-- C4: For every pair of rectangles `r` and `b`, `r.clip(b).clip(b)` equals
`r.clip(b)`: clipping to the same bounds twice equals clipping once. -/
theorem clip_idempotent (r b : BoundingRectangle) :
    (r.clip b).clip b = r.clip b := by
  simp only [BoundingRectangle.clip, BoundingRectangle.mk.injEq]
  refine ⟨?_, ?_, ?_, ?_⟩ <;> omega

/-- C5 counterexample: the claim that `r.clip(b)` never has negative width or
height fails for an inverted source rectangle.  With
`r = (top=10, bottom=0, left=10, right=0)` and `b = (top=0, bottom=20, left=0,
right=20)`, the clipped rectangle has width `-10` and height `-10`. -/
theorem clip_nonneg_counterexample :
    (BoundingRectangle.clip
        { top := 10, bottom := 0, left := 10, right := 0 }
        { top := 0, bottom := 20, left := 0, right := 20 }).width < 0
      ∧ (BoundingRectangle.clip
        { top := 10, bottom := 0, left := 10, right := 0 }
        { top := 0, bottom := 20, left := 0, right := 20 }).height < 0 := by
  decide

/-- C5 (amended): for every rectangle `r` that is well-formed
(`left ≤ right` and `top ≤ bottom`) and every rectangle `b`, the rectangle
`r.clip(b)` has width ≥ 0 and height ≥ 0. -/
theorem clip_nonneg (r b : BoundingRectangle)
    (hw : r.left ≤ r.right) (hh : r.top ≤ r.bottom) :
    0 ≤ (r.clip b).width ∧ 0 ≤ (r.clip b).height := by
  simp only [BoundingRectangle.clip, BoundingRectangle.width, BoundingRectangle.height]
  omega

/-- C5 witness: the amended nonnegativity theorem applied to the concrete
well-formed rectangle `(0, 5, 0, 10)` clipped against `(2, 3, 12, 14)`. -/
theorem clip_nonneg_witness :
    0 ≤ (BoundingRectangle.clip
          { top := 0, bottom := 5, left := 0, right := 10 }
          { top := 2, bottom := 3, left := 12, right := 14 }).width
      ∧ 0 ≤ (BoundingRectangle.clip
          { top := 0, bottom := 5, left := 0, right := 10 }
          { top := 2, bottom := 3, left := 12, right := 14 }).height :=
  clip_nonneg _ _ (by decide) (by decide)

/-! ## Theorem for C2 (ControlCodes.codesFrom) -/

/-- C2: applying the commands returned by `next.codesFrom(prev)` to a device
in attribute state `prev` leaves it in state `next`; the sequence contains
the reset-all command iff `next` disables a flag `prev` had enabled; and when
nothing is disabled, every emitted command is an enable command for a flag
newly turned on. -/
theorem codesFrom_correct (prev next : ControlCodes) :
    applyCodes prev (next.codesFrom prev) = next
      ∧ (AttrCode.setNormal ∈ next.codesFrom prev ↔ disablesSomething next prev)
      ∧ (¬ disablesSomething next prev →
          ∀ op ∈ next.codesFrom prev,
            (op = AttrCode.setBold ∧ prev.bold = false ∧ next.bold = true)
              ∨ (op = AttrCode.setUnderline ∧ prev.underline = false ∧ next.underline = true)
              ∨ (op = AttrCode.setReverse ∧ prev.reverse = false ∧ next.reverse = true)) := by
  obtain ⟨pb, pu, pr⟩ := prev
  obtain ⟨nb, nu, nr⟩ := next
  cases pb <;> cases pu <;> cases pr <;> cases nb <;> cases nu <;> cases nr <;> decide

/-- C2 witness: the main correctness theorem applied to the concrete pair
`prev = (bold)` and `next = (underline)`; since `next` disables bold, the
emitted sequence starts with reset-all and restores the underline flag. -/
theorem codesFrom_correct_witness :
    applyCodes { bold := true, underline := false, reverse := false }
        (ControlCodes.codesFrom { bold := false, underline := true, reverse := false }
          { bold := true, underline := false, reverse := false })
      = { bold := false, underline := true, reverse := false } :=
  (codesFrom_correct
    { bold := true, underline := false, reverse := false }
    { bold := false, underline := true, reverse := false }).1

/-! ## Theorem for C6 (display no-op on empty intersection) -/

/-- C6: whenever the intersection of the target rectangle with the device
extents has zero width or zero height, `display` is a no-op: it sends no
cursor moves, no commands and no text, and the shadow state is unchanged. -/
theorem display_noop_on_empty_intersection
    (terminal : Terminal) (lines : List (List Char × List ControlCodes))
    (bounds : BoundingRectangle)
    (h : (bounds.clip (screenBounds terminal)).width = 0
      ∨ (bounds.clip (screenBounds terminal)).height = 0) :
    display terminal lines bounds = []
      ∧ applyEvents terminal (display terminal lines bounds) = terminal := by
  have hd : display terminal lines bounds = [] := by
    unfold display
    split_ifs <;> simp_all
  exact ⟨hd, by rw [hd]; rfl⟩

/-- C6 witness: a 24×80 device and a target rectangle entirely to the right
of the screen; the clipped intersection is empty and `display` sends
nothing. -/
theorem display_noop_witness :
    display
        { rows := 24, columns := 80, bolded := false, underlined := false,
          reversed := false, cursorRow := 1, cursorCol := 1 }
        [(['a'], [{ bold := false, underline := false, reverse := false }])]
        { top := 1, bottom := 5, left := 100, right := 120 }
      = [] :=
  (display_noop_on_empty_intersection _ _ _ (Or.inl (by decide))).1

/-! ## Theorem for C10 (Renderer.pop on empty history) -/

/-- C10: calling `Renderer.pop` when the history stack is empty is a silent
no-op: the state is unchanged and no redraw events are produced. -/
theorem pop_empty_stack_noop {C : Type} (s : RendererState C) (h : s.stack = []) :
    Renderer.pop s = (s, []) := by
  unfold Renderer.pop
  rw [h]
  rfl

/-- C10 witness: popping a renderer with two active components and an empty
stack returns the same state and draws nothing. -/
theorem pop_empty_stack_noop_witness :
    Renderer.pop { components := [0, 1], stack := ([] : List (List Nat)) }
      = ({ components := [0, 1], stack := [] }, []) :=
  pop_empty_stack_noop _ rfl

/-! ## Theorem for C9 (highlight pairing invariant) -/

/-- Helper for C9: the highlight loop preserves equality of the text and
code accumulator lengths. -/
theorem highlightLoop_length (parts : List (List Char)) :
    ∀ cur bd ud rd t cs, (t : List Char).length = (cs : List ControlCodes).length →
      (highlightLoop parts cur bd ud rd t cs).1.length
        = (highlightLoop parts cur bd ud rd t cs).2.length := by
  induction parts with
  | nil => intro cur bd ud rd t cs h; simpa [highlightLoop] using h
  | cons part parts ih =>
    intro cur bd ud rd t cs h
    unfold highlightLoop
    split_ifs
    · exact ih _ _ _ _ _ _ h
    · exact ih _ _ _ _ _ _ (by simp [h])

/-- C9: for every input string, `highlight` returns a text and a code list
of equal length, establishing the styled-text pairing invariant required by
`wordwrap` and `display`. -/
theorem highlight_pairing (text : List Char) :
    (highlight text).1.length = (highlight text).2.length := by
  unfold highlight
  exact highlightLoop_length _ _ _ _ _ _ _ rfl

/-! ## Theorems for C3 (shift vs full repaint threshold) -/

/-- Helper: a list of `drawOneLine` events contains no scroll shifts and no
full redraw. -/
theorem drawOneLine_map_clean (l : List Int) :
    (l.map TLEvent.drawOneLine).count TLEvent.moveCursorUp = 0
      ∧ (l.map TLEvent.drawOneLine).count TLEvent.moveCursorDown = 0
      ∧ TLEvent.fullRedraw ∉ l.map TLEvent.drawOneLine := by
  refine ⟨List.count_eq_zero.2 ?_, List.count_eq_zero.2 ?_, ?_⟩ <;> simp

/-- C3 counterexample: with the viewport occupying rows 1..3 (viewport
height 3) and a jump distance of exactly 3, the distance is ≤ one viewport
height but the jump-to-top handler performs a full repaint instead of the
shift/partial-repaint path. -/
theorem jump_shift_threshold_counterexample :
    (3 : Int) ≤ viewHeight 1 3
      ∧ jumpToTop 1 3 3 false [] = [TLEvent.fullRedraw]
      ∧ TLEvent.moveCursorUp ∉ jumpToTop 1 3 3 false [] := by
  decide

/-- C3 (amended): for each jump handler (top / previous / next), a positive
row distance strictly below one viewport height (`(bottom - top) + 1`) takes
the shift/partial-repaint path, performing exactly one one-row shift per row
and no full repaint, and a distance of one viewport height or more performs
a full repaint of the whole viewport. -/
theorem jump_shift_threshold (top bottom d : Int) (pc : Bool) (labels : List Int)
    (ds : Int → Bool) (dr : Option (Int × Int)) (hd : 0 < d) :
    (d < viewHeight top bottom →
        (jumpToTop top bottom d pc labels).count TLEvent.moveCursorUp = d.toNat
          ∧ TLEvent.fullRedraw ∉ jumpToTop top bottom d pc labels
          ∧ (jumpToPrevPost top bottom d pc labels).count TLEvent.moveCursorUp = d.toNat
          ∧ TLEvent.fullRedraw ∉ jumpToPrevPost top bottom d pc labels
          ∧ (jumpToNextPost top bottom d pc labels ds dr).1.count TLEvent.moveCursorDown = d.toNat
          ∧ TLEvent.fullRedraw ∉ (jumpToNextPost top bottom d pc labels ds dr).1)
      ∧ (viewHeight top bottom ≤ d →
          jumpToTop top bottom d pc labels = [TLEvent.fullRedraw]
            ∧ jumpToPrevPost top bottom d pc labels = [TLEvent.fullRedraw]
            ∧ (jumpToNextPost top bottom d pc labels ds dr).1 = [TLEvent.fullRedraw]) := by
  simp only [viewHeight]
  constructor
  · intro hlt
    have h2 : d ≤ bottom - top := by omega
    unfold jumpToTop jumpToPrevPost jumpToNextPost
    rw [if_pos hd, if_pos hlt, if_pos hd, if_pos h2, if_pos hd, if_pos h2]
    cases pc <;>
      refine ⟨?_, ?_, ?_, ?_, ?_, ?_⟩ <;>
        simp [List.count_append, List.count_replicate, List.count_eq_zero]
  · intro hge
    unfold jumpToTop jumpToPrevPost jumpToNextPost
    rw [if_pos hd, if_neg (show ¬ d < (bottom - top) + 1 by omega), if_pos hd,
      if_neg (show ¬ d ≤ bottom - top by omega), if_pos hd,
      if_neg (show ¬ d ≤ bottom - top by omega)]
    refine ⟨rfl, rfl, ?_⟩
    cases dr <;> rfl

/-- C3 witness: the amended threshold theorem applied to a viewport on rows
1..5 with a jump distance of 2: the jump-to-top trace contains exactly two
one-row shifts. -/
theorem jump_shift_threshold_witness :
    (jumpToTop 1 5 2 false []).count TLEvent.moveCursorUp = (2 : Int).toNat :=
  ((jump_shift_threshold 1 5 2 false [] (fun _ => true) none (by decide)).1
    (by decide)).1

/-! ## Theorem for C8 (infinite-scroll fetch appends) -/

/-- C8: when the infinite-scroll block runs, its trace contains exactly one
fetch call, the previously held status and post lists are unchanged prefixes
of the new lists, and the newly fetched blocks are appended in order (so
nothing is reordered or duplicated). -/
theorem infiniteScrollStep_appends {S P : Type} (statuses : List S)
    (posts : List P) (getPost : S → P) (redrawRows : List Int)
    (fetched : List S) (h : statuses ≠ []) :
    (infiniteScrollStep statuses posts getPost redrawRows fetched h).1
        = statuses ++ fetched
      ∧ (infiniteScrollStep statuses posts getPost redrawRows fetched h).2.1
        = posts ++ fetched.map getPost
      ∧ ((infiniteScrollStep statuses posts getPost redrawRows fetched h).2.2.filter
          ScrollEvent.isFetch).length = 1 := by
  refine ⟨rfl, rfl, ?_⟩
  unfold infiniteScrollStep
  simp only [List.filter_append, List.length_append]
  rw [List.filter_map]
  simp [ScrollEvent.isFetch, Function.comp]

/-- C8 witness: the append theorem applied to a concrete two-status
timeline fetching two more statuses; the old lists are prefixes and one
fetch occurs. -/
theorem infiniteScrollStep_appends_witness :
    (infiniteScrollStep [10, 11] [0, 1] (fun s => s + 100) [5, 6] [12, 13]
        (by decide)).1
      = [10, 11] ++ [12, 13] :=
  (infiniteScrollStep_appends [10, 11] [0, 1] (fun s => s + 100) [5, 6] [12, 13]
    (by decide)).1

/-! ## Theorems for C1 and C7 (wordwrap) -/

/-- Helper: the last element (with default) of a nonempty list is a member. -/
theorem mem_getLastD {l : List Nat} {d : Nat} (h : l ≠ []) : l.getLastD d ∈ l := by
  rw [List.getLastD_eq_getLast?, List.getLast?_eq_getLast _ h]
  exact List.getLast_mem h

/-- Helper for C1: one loop step only emits lines of width at most `width`
whose text and metadata lengths agree and whose metadata entries come from
the incoming metadata, and it preserves the text/metadata length agreement
and metadata provenance of the state. -/
theorem wwStep_spec {M : Type} (width : Nat) (ssp : Bool) (text : List Char)
    (meta : List M) (points : List Nat) (hlen : text.length = meta.length) :
    (∀ l ∈ (wwStep width ssp text meta points).1,
        l.1.length ≤ width ∧ l.1.length = l.2.length ∧ ∀ x ∈ l.2, x ∈ meta)
      ∧ (wwStep width ssp text meta points).2.1.length
          = (wwStep width ssp text meta points).2.2.1.length
      ∧ ∀ x ∈ (wwStep width ssp text meta points).2.2.1, x ∈ meta := by
  have hrel : ∀ p ∈ points.filter (fun x => decide (x ≤ width)), p ≤ width := by
    intro p hp
    simpa using (List.mem_filter.mp hp).2
  unfold wwStep
  cases hfind : (points.filter (fun x => decide (x ≤ width))).find?
      (fun pos => text.getD pos 'x' == '\n') with
  | some pos =>
    have hpw : pos ≤ width := hrel _ (List.mem_of_find?_eq_some hfind)
    simp only [hfind]
    refine ⟨?_, ?_, ?_⟩
    · intro l hl
      simp only [List.mem_singleton] at hl
      subst hl
      refine ⟨?_, ?_, fun x hx => List.take_subset _ _ hx⟩
      · simp only [List.length_take]; omega
      · simp only [List.length_take, hlen]
    · simp only [List.length_drop, hlen]
    · intro x hx; exact List.drop_subset _ _ hx
  | none =>
    simp only [hfind]
    by_cases hc : width < text.length
        ∧ points.filter (fun x => decide (x ≤ width)) ≠ []
    · rw [if_pos hc]
      have hpw : (points.filter (fun x => decide (x ≤ width))).getLastD 0 ≤ width :=
        hrel _ (mem_getLastD hc.2)
      by_cases hsp :
          text.getD ((points.filter (fun x => decide (x ≤ width))).getLastD 0) 'x' = ' '
      · rw [if_pos hsp]
        cases ssp with
        | true =>
          rw [if_pos rfl]
          cases hf : findFirstNonSpace text
              ((points.filter (fun x => decide (x ≤ width))).getLastD 0 + 1) with
          | some spot =>
            simp only [hf]
            refine ⟨?_, ?_, ?_⟩
            · intro l hl
              simp only [List.mem_singleton] at hl
              subst hl
              refine ⟨?_, ?_, fun x hx => List.take_subset _ _ hx⟩
              · simp only [List.length_take]; omega
              · simp only [List.length_take, hlen]
            · simp only [List.length_drop, hlen]
            · intro x hx; exact List.drop_subset _ _ hx
          | none =>
            simp only [hf]
            refine ⟨?_, by simp, by simp⟩
            intro l hl
            simp only [List.mem_singleton] at hl
            subst hl
            refine ⟨?_, ?_, fun x hx => List.take_subset _ _ hx⟩
            · simp only [List.length_take]; omega
            · simp only [List.length_take, hlen]
        | false =>
          rw [if_neg (by simp)]
          by_cases hpe : (points.filter (fun x => decide (x ≤ width))).getLastD 0 = width
              ∧ pyGet text (((points.filter (fun x => decide (x ≤ width))).getLastD 0 : Int) - 1) ≠ ' '
          · rw [if_pos hpe]
            refine ⟨?_, ?_, ?_⟩
            · intro l hl
              simp only [List.mem_cons] at hl
              rcases hl with hl | hl
              · subst hl
                refine ⟨?_, ?_, fun x hx => List.take_subset _ _ hx⟩
                · simp only [List.length_take]; omega
                · simp only [List.length_take, hlen]
              · have hll : l = (([] : List Char), ([] : List M)) := by
                  cases hx : (text.drop
                      ((points.filter (fun x => decide (x ≤ width))).getLastD 0 + 1)).isEmpty with
                  | false => rw [hx] at hl; simp at hl
                  | true => rw [hx] at hl; simpa using hl
                subst hll
                exact ⟨by simp, by simp, by simp⟩
            · simp only [List.length_drop, hlen]
            · intro x hx; exact List.drop_subset _ _ hx
          · rw [if_neg hpe]
            refine ⟨?_, ?_, ?_⟩
            · intro l hl
              simp only [List.mem_singleton] at hl
              subst hl
              constructor
              · simp only [List.length_take]
                split_ifs <;> omega
              · exact ⟨by simp only [List.length_take, hlen], fun x hx => List.take_subset _ _ hx⟩
            · simp only [List.length_drop, hlen]
            · intro x hx; exact List.drop_subset _ _ hx
      · rw [if_neg hsp]
        refine ⟨?_, ?_, ?_⟩
        · intro l hl
          simp only [List.mem_singleton] at hl
          subst hl
          refine ⟨?_, ?_, fun x hx => List.take_subset _ _ hx⟩
          · simp only [List.length_take]; omega
          · simp only [List.length_take, hlen]
        · simp only [List.length_drop, hlen]
        · intro x hx; exact List.drop_subset _ _ hx
    · rw [if_neg hc]
      refine ⟨?_, ?_, ?_⟩
      · intro l hl
        simp only [List.mem_singleton] at hl
        subst hl
        refine ⟨?_, ?_, fun x hx => List.take_subset _ _ hx⟩
        · simp only [List.length_take]; omega
        · simp only [List.length_take, hlen]
      · simp only [List.length_drop, hlen]
      · intro x hx; exact List.drop_subset _ _ hx

/-- Helper for C1: the loop invariant.  If text and metadata lengths agree,
all metadata entries come from `meta0`, and the accumulator already
satisfies the line conditions, then every line of a successful run does. -/
theorem wwLoop_spec {M : Type} (width : Nat) (ssp : Bool) (meta0 : List M) :
    ∀ (fuel : Nat) (text : List Char) (meta : List M) (points : List Nat)
      (acc out : List (List Char × List M)),
      text.length = meta.length →
      (∀ x ∈ meta, x ∈ meta0) →
      (∀ l ∈ acc, l.1.length ≤ width ∧ l.1.length = l.2.length ∧ ∀ x ∈ l.2, x ∈ meta0) →
      wwLoop width ssp fuel text meta points acc = some out →
      ∀ l ∈ out, l.1.length ≤ width ∧ l.1.length = l.2.length ∧ ∀ x ∈ l.2, x ∈ meta0 := by
  intro fuel
  induction fuel with
  | zero =>
    intro text meta points acc out hlen hmem hacc hout
    cases text with
    | nil =>
      cases hout
      exact hacc
    | cons c rest => exact absurd hout (by simp [wwLoop])
  | succ n ih =>
    intro text meta points acc out hlen hmem hacc hout
    cases text with
    | nil =>
      cases hout
      exact hacc
    | cons c rest =>
      have hstep := wwStep_spec width ssp (c :: rest) meta points hlen
      refine ih _ _ _ _ _ hstep.2.1 (fun x hx => hmem _ (hstep.2.2 x hx)) ?_ hout
      intro l hl
      rcases List.mem_append.mp hl with hl | hl
      · exact hacc l hl
      · obtain ⟨h1, h2, h3⟩ := hstep.1 l hl
        exact ⟨h1, h2, fun x hx => hmem _ (h3 x hx)⟩

/-- Helper for C1: the trailing-space strip never grows a line, keeps text
and metadata lengths in step, and only drops metadata entries. -/
theorem rstripSpacesAux_spec {M : Type} :
    ∀ (fuel : Nat) (t : List Char) (m : List M), t.length = m.length →
      (rstripSpacesAux fuel t m).1.length ≤ t.length
        ∧ (rstripSpacesAux fuel t m).1.length = (rstripSpacesAux fuel t m).2.length
        ∧ ∀ x ∈ (rstripSpacesAux fuel t m).2, x ∈ m := by
  intro fuel
  induction fuel with
  | zero => intro t m hlen; exact ⟨le_refl _, hlen, fun x hx => hx⟩
  | succ n ih =>
    intro t m hlen
    unfold rstripSpacesAux
    split_ifs with hsp
    · have hrec := ih t.dropLast m.dropLast (by simp [hlen])
      refine ⟨le_trans hrec.1 (by rw [List.length_dropLast]; omega), hrec.2.1,
        fun x hx => List.dropLast_subset m (hrec.2.2 x hx)⟩
    · exact ⟨le_refl _, hlen, fun x hx => hx⟩

/-- Helper for C1: the `stripSpace` post-processing preserves the line
conditions. -/
theorem stripSpace_spec {M : Type} (width : Nat) (ssp : Bool) (meta0 : List M)
    (l : List Char × List M)
    (h : l.1.length ≤ width ∧ l.1.length = l.2.length ∧ ∀ x ∈ l.2, x ∈ meta0) :
    (stripSpace ssp l).1.length ≤ width
      ∧ (stripSpace ssp l).1.length = (stripSpace ssp l).2.length
      ∧ ∀ x ∈ (stripSpace ssp l).2, x ∈ meta0 := by
  unfold stripSpace
  split_ifs with hbk hssp
  · exact ⟨by simp, by simp, by simp⟩
  · have hrec := rstripSpacesAux_spec l.1.length l.1 l.2 h.2.1
    exact ⟨le_trans hrec.1 h.1, hrec.2.1, fun x hx => h.2.2 x (hrec.2.2 x hx)⟩
  · exact h

/-- Helper for C1: stripping trailing empty lines only removes lines. -/
theorem dropTrailingEmptiesAux_subset {M : Type} :
    ∀ (fuel : Nat) (ls : List (List Char × List M)),
      ∀ l ∈ dropTrailingEmptiesAux fuel ls, l ∈ ls := by
  intro fuel
  induction fuel with
  | zero => intro ls l hl; exact hl
  | succ n ih =>
    intro ls l hl
    unfold dropTrailingEmptiesAux at hl
    split_ifs at hl with hcond
    · exact List.dropLast_subset ls (ih ls.dropLast l hl)
    · exact hl

/-- Helper for C1: every metadata entry produced by the tab-expansion loop
is an entry of the original metadata. -/
theorem tabStep_mem {M : Type} (meta : List M) :
    ∀ (text : List Char) (i lineLength : Nat),
      ∀ x ∈ (tabStep meta i lineLength text).2, x ∈ meta := by
  intro text
  induction text with
  | nil => intro i ll x hx; simp [tabStep] at hx
  | cons c rest ih =>
    intro i ll x hx
    unfold tabStep at hx
    split_ifs at hx with h1 h2 h3
    · rcases List.mem_append.mp hx with hx | hx
      · rw [List.mem_flatten] at hx
        obtain ⟨s, hs, hxs⟩ := hx
        rw [List.eq_of_mem_replicate hs] at hxs
        exact List.drop_subset _ _ (List.take_subset _ _ hxs)
      · exact ih _ _ x hx
    · exact ih _ _ x hx
    · rcases List.mem_append.mp hx with hx | hx
      · exact List.drop_subset _ _ (List.take_subset _ _ hx)
      · exact ih _ _ x hx
    · rcases List.mem_append.mp hx with hx | hx
      · exact List.drop_subset _ _ (List.take_subset _ _ hx)
      · exact ih _ _ x hx

/-- Helper for C1: every metadata entry surviving preprocessing is an entry
of the original metadata. -/
theorem wwPrepared_mem {M : Type} (text : List Char) (meta : List M) :
    ∀ x ∈ (wwPrepared text meta).2, x ∈ meta := by
  intro x hx
  simp only [wwPrepared] at hx
  split_ifs at hx with h
  · rcases List.mem_append.mp hx with hx | hx
    · exact tabStep_mem meta _ _ _ x hx
    · exact tabStep_mem meta _ _ _ x (List.drop_subset _ _ hx)
  · exact tabStep_mem meta _ _ _ x hx

/-- C1: for every input with matching text/metadata lengths, every line of
a successful `wordwrap` run has text length at most `width`, its text and
metadata lengths agree, and its metadata values all come from the source
metadata (only repositioned); moreover a forced mid-word break (text longer
than `width` with no usable wrap point) always cuts a line of exactly
`width` characters. -/
theorem wordwrap_wrapped_lines {M : Type} (text : List Char) (meta : List M)
    (width fuel : Nat) (ssp snl : Bool) (lines : List (List Char × List M))
    (hlen : text.length = meta.length)
    (hok : wordwrap text meta width ssp snl fuel = WWResult.ok lines) :
    (∀ l ∈ lines, l.1.length ≤ width ∧ l.1.length = l.2.length ∧ ∀ x ∈ l.2, x ∈ meta)
      ∧ ∀ (t : List Char) (m : List M) (pts : List Nat),
          width < t.length → pts.filter (fun x => decide (x ≤ width)) = [] →
          (wwStep width ssp t m pts).1 = [(t.take width, m.take width)]
            ∧ (t.take width).length = width := by
  constructor
  · unfold wordwrap at hok
    by_cases hemp : text.isEmpty
    · rw [if_pos hemp] at hok
      injection hok with hok
      subst hok
      intro l hl
      simp only [List.mem_singleton] at hl
      subst hl
      exact ⟨by simp, by simp, by simp⟩
    · rw [if_neg hemp, if_neg (not_not_intro hlen)] at hok
      by_cases hg : (wwPrepared text meta).1.length ≠ (wwPrepared text meta).2.length
      · rw [if_pos hg] at hok
        exact absurd hok (by simp)
      · rw [if_neg hg] at hok
        cases hloop : wwLoop width ssp fuel (wwPrepared text meta).1
            (wwPrepared text meta).2 (findWrapPoints 0 false (wwPrepared text meta).1) [] with
        | none => rw [hloop] at hok; exact absurd hok (by simp)
        | some outLines =>
          rw [hloop] at hok
          injection hok with hok
          subst hok
          have hout := wwLoop_spec width ssp meta fuel (wwPrepared text meta).1
            (wwPrepared text meta).2 (findWrapPoints 0 false (wwPrepared text meta).1)
            [] outLines (by omega) (wwPrepared_mem text meta) (by simp) hloop
          intro l hl
          have hl2 : l ∈ outLines.map (stripSpace ssp) := by
            cases snl with
            | true =>
              rw [if_pos rfl] at hl
              exact dropTrailingEmptiesAux_subset _ _ l hl
            | false =>
              rw [if_neg (by simp)] at hl
              exact hl
          obtain ⟨l0, hl0, hmap⟩ := List.mem_map.mp hl2
          subst hmap
          exact stripSpace_spec width ssp meta l0 (hout l0 hl0)
  · intro t m pts hw hrel
    unfold wwStep
    rw [hrel]
    simp only [List.find?_nil]
    rw [if_neg (by simp)]
    constructor
    · rfl
    · simp only [List.length_take]; omega

/-- C1 witness: the wrapped-line theorem applied to the concrete input
`"abc def"` with metadata `[0..6]` at width 5: the first produced line is
`"abc"`, whose length is within the width. -/
theorem wordwrap_wrapped_lines_witness :
    (("abc").toList, ([0, 1, 2] : List Nat)).1.length ≤ 5 :=
  ((wordwrap_wrapped_lines ("abc def").toList [0, 1, 2, 3, 4, 5, 6] 5 30 true true
      [(("abc").toList, [0, 1, 2]), (("def").toList, [4, 5, 6])] (by decide)
      (by decide)).1
    (("abc").toList, [0, 1, 2]) (by decide)).1

/-- C7 counterexample: an empty text with a one-entry metadata list has
mismatched lengths, yet `wordwrap` returns a result (one empty line) instead
of raising the defensive assertion: the empty-text early return runs before
the length check. -/
theorem wordwrap_mismatch_counterexample :
    (([] : List Char)).length ≠ (([0] : List Nat)).length
      ∧ wordwrap ([] : List Char) ([0] : List Nat) 5 true true 10
        = WWResult.ok [([], [])] := by
  exact ⟨by decide, rfl⟩

/-- C7 (amended): for every input with nonempty text and mismatched
text/metadata lengths, `wordwrap` raises the defensive assertion (returns
the length-mismatch error) rather than returning a result. -/
theorem wordwrap_mismatch_raises {M : Type} (text : List Char) (meta : List M)
    (width fuel : Nat) (ssp snl : Bool) (hne : text ≠ [])
    (hmm : text.length ≠ meta.length) :
    wordwrap text meta width ssp snl fuel
      = WWResult.err ("Metadata length must match text length!") := by
  unfold wordwrap
  rw [if_neg (by simpa using hne), if_pos hmm]

/-- C7 witness: the amended theorem applied to the concrete nonempty text
`"a"` with empty metadata. -/
theorem wordwrap_mismatch_raises_witness :
    wordwrap (("a").toList) ([] : List Nat) 5 true true 3
      = WWResult.err ("Metadata length must match text length!") :=
  wordwrap_mismatch_raises _ _ _ _ _ _ (by decide) (by decide)

end Masto
